import Mathlib

/-
Verification of the cryptographic core of s390-tools (rust/pv/src/crypto.rs and
rust/pvattest/src/cmd/check/secret_store.rs) against its specification.

The Rust code composes primitives of an external cryptography provider
(OpenSSL).  The provider primitives are shallow-embedded as follows:
* message digests (SHA-256, SHA-512) and the HKDF/HMAC primitives are given
  executable reference implementations over byte lists (`List Nat`, each
  element < 256, machine words as `Nat` reduced mod 2^32 / 2^64);
* the AEAD cipher, the Diffie-Hellman deriver and the signature contexts are
  abstract provider structures: theorems quantify over every provider that
  satisfies the properties the external library documents.
The repository functions themselves are translated line by line on top of
these provider models.
-/

namespace Pv

/-! ## Byte and word helpers -/

/-- Modulus of 32-bit machine words. -/
def M32 : Nat := 4294967296

/-- Modulus of 64-bit machine words. -/
def M64 : Nat := 18446744073709551616

/-- Addition of 32-bit words. -/
def add32 (a b : Nat) : Nat := (a + b) % M32

/-- Addition of 64-bit words. -/
def add64 (a b : Nat) : Nat := (a + b) % M64

/-- Right rotation of a 32-bit word. -/
def rotr32 (n x : Nat) : Nat := ((x >>> n) ||| (x <<< (32 - n))) % M32

/-- Right rotation of a 64-bit word. -/
def rotr64 (n x : Nat) : Nat := ((x >>> n) ||| (x <<< (64 - n))) % M64

/-- Big-endian byte decomposition of `v` into `n` bytes, most significant first. -/
def beBytes : Nat → Nat → List Nat
  | 0, _ => []
  | n + 1, v => beBytes n (v / 256) ++ [v % 256]

theorem beBytes_length (n v : Nat) : (beBytes n v).length = n := by
  induction n generalizing v with
  | zero => rfl
  | succ n ih => simp [beBytes, ih]

/-! ## SHA-256 (FIPS 180-4) — reference implementation of the provider digest -/

/-- Working state of the SHA-256 compression function: eight 32-bit words. -/
structure Sha256State where
  a : Nat
  b : Nat
  c : Nat
  d : Nat
  e : Nat
  f : Nat
  g : Nat
  h : Nat

/-- SHA-256 initial hash value. -/
def sha256Init : Sha256State :=
  ⟨1779033703, 3144134277, 1013904242, 2773480762,
   1359893119, 2600822924, 528734635, 1541459225⟩

/-- SHA-256 round constants (fractional parts of cube roots of the first 64 primes). -/
def K256 : List Nat := [
  1116352408, 1899447441, 3049323471, 3921009573,
  961987163, 1508970993, 2453635748, 2870763221,
  3624381080, 310598401, 607225278, 1426881987,
  1925078388, 2162078206, 2614888103, 3248222580,
  3835390401, 4022224774, 264347078, 604807628,
  770255983, 1249150122, 1555081692, 1996064986,
  2554220882, 2821834349, 2952996808, 3210313671,
  3336571891, 3584528711, 113926993, 338241895,
  666307205, 773529912, 1294757372, 1396182291,
  1695183700, 1986661051, 2177026350, 2456956037,
  2730485921, 2820302411, 3259730800, 3345764771,
  3516065817, 3600352804, 4094571909, 275423344,
  430227734, 506948616, 659060556, 883997877,
  958139571, 1322822218, 1537002063, 1747873779,
  1955562222, 2024104815, 2227730452, 2361852424,
  2428436474, 2756734187, 3204031479, 3329325298]

/-- SHA-256 big sigma 0. -/
def bsig256_0 (x : Nat) : Nat := rotr32 2 x ^^^ rotr32 13 x ^^^ rotr32 22 x

/-- SHA-256 big sigma 1. -/
def bsig256_1 (x : Nat) : Nat := rotr32 6 x ^^^ rotr32 11 x ^^^ rotr32 25 x

/-- SHA-256 small sigma 0. -/
def ssig256_0 (x : Nat) : Nat := rotr32 7 x ^^^ rotr32 18 x ^^^ (x >>> 3)

/-- SHA-256 small sigma 1. -/
def ssig256_1 (x : Nat) : Nat := rotr32 17 x ^^^ rotr32 19 x ^^^ (x >>> 10)

/-- Choice function of SHA-2. -/
def chF (x y z : Nat) : Nat := (x &&& y) ^^^ ((x ^^^ (M32 - 1)) &&& z)

/-- Choice function of SHA-2 on 64-bit words. -/
def chF64 (x y z : Nat) : Nat := (x &&& y) ^^^ ((x ^^^ (M64 - 1)) &&& z)

/-- Majority function of SHA-2. -/
def majF (x y z : Nat) : Nat := (x &&& y) ^^^ (x &&& z) ^^^ (y &&& z)

/-- Group a byte list into 32-bit big-endian words (complete groups of 4 only). -/
def toWords32 : List Nat → List Nat
  | b0 :: b1 :: b2 :: b3 :: rest =>
      (((b0 * 256 + b1) * 256 + b2) * 256 + b3) :: toWords32 rest
  | _ => []

/-- Group a word list into blocks of 16 words (complete blocks only). -/
def toBlocks16 : List Nat → List (List Nat)
  | w0 :: w1 :: w2 :: w3 :: w4 :: w5 :: w6 :: w7 ::
    w8 :: w9 :: w10 :: w11 :: w12 :: w13 :: w14 :: w15 :: rest =>
      [w0, w1, w2, w3, w4, w5, w6, w7, w8, w9, w10, w11, w12, w13, w14, w15] ::
        toBlocks16 rest
  | _ => []

/-- One message-schedule extension step of SHA-256: append word `W[t]` for `t = w.length`. -/
def w256step (w : List Nat) : List Nat :=
  let t := w.length
  w ++ [add32 (add32 (ssig256_1 (w.getD (t - 2) 0)) (w.getD (t - 7) 0))
              (add32 (ssig256_0 (w.getD (t - 15) 0)) (w.getD (t - 16) 0))]

/-- Iterate a message-schedule extension step `n` times. -/
def extendSched (step : List Nat → List Nat) : List Nat → Nat → List Nat
  | w, 0 => w
  | w, n + 1 => extendSched step (step w) n

/-- One round of the SHA-256 compression function. -/
def round256 (s : Sha256State) (kw : Nat × Nat) : Sha256State :=
  let t1 := add32 (add32 (add32 s.h (bsig256_1 s.e)) (add32 (chF s.e s.f s.g) kw.1)) kw.2
  let t2 := add32 (bsig256_0 s.a) (majF s.a s.b s.c)
  ⟨add32 t1 t2, s.a, s.b, s.c, add32 s.d t1, s.e, s.f, s.g⟩

/-- SHA-256 compression of one 16-word block into the chaining state. -/
def sha256Block (s : Sha256State) (block : List Nat) : Sha256State :=
  let w := extendSched w256step block 48
  let t := (K256.zip w).foldl round256 s
  ⟨add32 s.a t.a, add32 s.b t.b, add32 s.c t.c, add32 s.d t.d,
   add32 s.e t.e, add32 s.f t.f, add32 s.g t.g, add32 s.h t.h⟩

/-- SHA-256 padding: append `0x80`, zeros and the 8-byte big-endian bit length
so the total length is a multiple of 64 bytes. -/
def pad64 (msg : List Nat) : List Nat :=
  msg ++ 128 :: List.replicate ((119 - msg.length % 64) % 64) 0 ++
    beBytes 8 (msg.length * 8)

/-- SHA-256 digest of a byte list (32 bytes). -/
def sha256 (msg : List Nat) : List Nat :=
  let s := (toBlocks16 (toWords32 (pad64 msg))).foldl sha256Block sha256Init
  beBytes 4 s.a ++ beBytes 4 s.b ++ beBytes 4 s.c ++ beBytes 4 s.d ++
    beBytes 4 s.e ++ beBytes 4 s.f ++ beBytes 4 s.g ++ beBytes 4 s.h

theorem sha256_length (msg : List Nat) : (sha256 msg).length = 32 := by
  simp [sha256, beBytes_length]

/-! ## SHA-512 (FIPS 180-4) — reference implementation of the provider digest -/

/-- Working state of the SHA-512 compression function: eight 64-bit words. -/
structure Sha512State where
  a : Nat
  b : Nat
  c : Nat
  d : Nat
  e : Nat
  f : Nat
  g : Nat
  h : Nat

/-- SHA-512 initial hash value. -/
def sha512Init : Sha512State :=
  ⟨7640891576956012808, 13503953896175478587, 4354685564936845355, 11912009170470909681,
   5840696475078001361, 11170449401992604703, 2270897969802886507, 6620516959819538809⟩

/-- SHA-512 round constants (fractional parts of cube roots of the first 80 primes). -/
def K512 : List Nat := [
  4794697086780616226, 8158064640168781261,
  13096744586834688815, 16840607885511220156,
  4131703408338449720, 6480981068601479193,
  10538285296894168987, 12329834152419229976,
  15566598209576043074, 1334009975649890238,
  2608012711638119052, 6128411473006802146,
  8268148722764581231, 9286055187155687089,
  11230858885718282805, 13951009754708518548,
  16472876342353939154, 17275323862435702243,
  1135362057144423861, 2597628984639134821,
  3308224258029322869, 5365058923640841347,
  6679025012923562964, 8573033837759648693,
  10970295158949994411, 12119686244451234320,
  12683024718118986047, 13788192230050041572,
  14330467153632333762, 15395433587784984357,
  489312712824947311, 1452737877330783856,
  2861767655752347644, 3322285676063803686,
  5560940570517711597, 5996557281743188959,
  7280758554555802590, 8532644243296465576,
  9350256976987008742, 10552545826968843579,
  11727347734174303076, 12113106623233404929,
  14000437183269869457, 14369950271660146224,
  15101387698204529176, 15463397548674623760,
  17586052441742319658, 1182934255886127544,
  1847814050463011016, 2177327727835720531,
  2830643537854262169, 3796741975233480872,
  4115178125766777443, 5681478168544905931,
  6601373596472566643, 7507060721942968483,
  8399075790359081724, 8693463985226723168,
  9568029438360202098, 10144078919501101548,
  10430055236837252648, 11840083180663258601,
  13761210420658862357, 14299343276471374635,
  14566680578165727644, 15097957966210449927,
  16922976911328602910, 17689382322260857208,
  500013540394364858, 748580250866718886,
  1242879168328830382, 1977374033974150939,
  2944078676154940804, 3659926193048069267,
  4368137639120453308, 4836135668995329356,
  5532061633213252278, 6448918945643986474,
  6902733635092675308, 7801388544844847127]

/-- SHA-512 big sigma 0. -/
def bsig512_0 (x : Nat) : Nat := rotr64 28 x ^^^ rotr64 34 x ^^^ rotr64 39 x

/-- SHA-512 big sigma 1. -/
def bsig512_1 (x : Nat) : Nat := rotr64 14 x ^^^ rotr64 18 x ^^^ rotr64 41 x

/-- SHA-512 small sigma 0. -/
def ssig512_0 (x : Nat) : Nat := rotr64 1 x ^^^ rotr64 8 x ^^^ (x >>> 7)

/-- SHA-512 small sigma 1. -/
def ssig512_1 (x : Nat) : Nat := rotr64 19 x ^^^ rotr64 61 x ^^^ (x >>> 6)

/-- Group a byte list into 64-bit big-endian words (complete groups of 8 only). -/
def toWords64 : List Nat → List Nat
  | b0 :: b1 :: b2 :: b3 :: b4 :: b5 :: b6 :: b7 :: rest =>
      (((((((b0 * 256 + b1) * 256 + b2) * 256 + b3) * 256 + b4) * 256 + b5) * 256
          + b6) * 256 + b7) :: toWords64 rest
  | _ => []

/-- One message-schedule extension step of SHA-512: append word `W[t]` for `t = w.length`. -/
def w512step (w : List Nat) : List Nat :=
  let t := w.length
  w ++ [add64 (add64 (ssig512_1 (w.getD (t - 2) 0)) (w.getD (t - 7) 0))
              (add64 (ssig512_0 (w.getD (t - 15) 0)) (w.getD (t - 16) 0))]

/-- One round of the SHA-512 compression function. -/
def round512 (s : Sha512State) (kw : Nat × Nat) : Sha512State :=
  let t1 := add64 (add64 (add64 s.h (bsig512_1 s.e)) (add64 (chF64 s.e s.f s.g) kw.1)) kw.2
  let t2 := add64 (bsig512_0 s.a) (majF s.a s.b s.c)
  ⟨add64 t1 t2, s.a, s.b, s.c, add64 s.d t1, s.e, s.f, s.g⟩

/-- SHA-512 compression of one 16-word block into the chaining state. -/
def sha512Block (s : Sha512State) (block : List Nat) : Sha512State :=
  let w := extendSched w512step block 64
  let t := (K512.zip w).foldl round512 s
  ⟨add64 s.a t.a, add64 s.b t.b, add64 s.c t.c, add64 s.d t.d,
   add64 s.e t.e, add64 s.f t.f, add64 s.g t.g, add64 s.h t.h⟩

/-- SHA-512 padding: append `0x80`, zeros and the 16-byte big-endian bit length
so the total length is a multiple of 128 bytes. -/
def pad128 (msg : List Nat) : List Nat :=
  msg ++ 128 :: List.replicate ((239 - msg.length % 128) % 128) 0 ++
    beBytes 16 (msg.length * 8)

/-- SHA-512 digest of a byte list (64 bytes). -/
def sha512 (msg : List Nat) : List Nat :=
  let s := (toBlocks16 (toWords64 (pad128 msg))).foldl sha512Block sha512Init
  beBytes 8 s.a ++ beBytes 8 s.b ++ beBytes 8 s.c ++ beBytes 8 s.d ++
    beBytes 8 s.e ++ beBytes 8 s.f ++ beBytes 8 s.g ++ beBytes 8 s.h

theorem sha512_length (msg : List Nat) : (sha512 msg).length = 64 := by
  simp [sha512, beBytes_length]

/-! ## HMAC and HKDF (RFC 2104 / RFC 5869)

Model of the OpenSSL HKDF provider primitive (`PkeyCtx` with `Id::HKDF` in
mode `EXTRACT_THEN_EXPAND`), per RFC 5869, which OpenSSL implements. -/

/-- Model of an `openssl::md::MdRef` digest selector: the digest function
together with its block size and output size in bytes. -/
structure MdImpl where
  hashFn : List Nat → List Nat
  blockSize : Nat
  outSize : Nat

/-- The digest selector `Md::sha256()`. -/
def mdSha256 : MdImpl := ⟨sha256, 64, 32⟩

/-- The digest selector `Md::sha512()`. -/
def mdSha512 : MdImpl := ⟨sha512, 128, 64⟩

/-- HMAC (RFC 2104) under a digest selector. -/
def hmac (md : MdImpl) (key msg : List Nat) : List Nat :=
  let k0 := if md.blockSize < key.length then md.hashFn key else key
  let k := k0 ++ List.replicate (md.blockSize - k0.length) 0
  let ipad := k.map (fun b => b ^^^ 0x36)
  let opad := k.map (fun b => b ^^^ 0x5c)
  md.hashFn (opad ++ md.hashFn (ipad ++ msg))

/-- HKDF-Extract (RFC 5869, section 2.2): `PRK = HMAC-Hash(salt, IKM)`. -/
def hkdfExtract (md : MdImpl) (salt ikm : List Nat) : List Nat := hmac md salt ikm

/-- HKDF-Expand block `T(i)` (RFC 5869, section 2.3): `T(0)` is empty and
`T(i) = HMAC-Hash(PRK, T(i-1) || info || [i])`. -/
def hkdfT (md : MdImpl) (prk info : List Nat) : Nat → List Nat
  | 0 => []
  | i + 1 => hmac md prk (hkdfT md prk info i ++ info ++ [(i + 1) % 256])

/-- Concatenation `T(1) || ... || T(k)` of the HKDF-Expand blocks. -/
def hkdfConcat (md : MdImpl) (prk info : List Nat) : Nat → List Nat
  | 0 => []
  | k + 1 => hkdfConcat md prk info k ++ hkdfT md prk info (k + 1)

/-- HKDF-Expand (RFC 5869, section 2.3): the first `n` bytes of
`T(1) || ... || T(ceil(n / HashLen))`. -/
def hkdfExpand (md : MdImpl) (prk info : List Nat) (n : Nat) : List Nat :=
  (hkdfConcat md prk info ((n + md.outSize - 1) / md.outSize)).take n

/-- Embedding of `hkdf_rfc_5869` (crypto.rs line 126): sets up the provider HKDF
context in mode `EXTRACT_THEN_EXPAND` with the given digest, salt, key material
and info and derives `COUNT` bytes.  The provider rejects a request of more than
`255 * HashLen` bytes (RFC 5869 bound), which surfaces as the error case. -/
def hkdf_rfc_5869 (md : MdImpl) (ikm salt info : List Nat) (COUNT : Nat) :
    Option (List Nat) :=
  if COUNT ≤ 255 * md.outSize then
    some (hkdfExpand md (hkdfExtract md salt ikm) info COUNT)
  else
    none

theorem hmac_length (md : MdImpl)
    (hlen : ∀ m, (md.hashFn m).length = md.outSize) (key msg : List Nat) :
    (hmac md key msg).length = md.outSize := by
  simp [hmac, hlen]

theorem hkdfConcat_length (md : MdImpl)
    (hlen : ∀ m, (md.hashFn m).length = md.outSize) (prk info : List Nat)
    (k : Nat) : (hkdfConcat md prk info k).length = k * md.outSize := by
  induction k with
  | zero => simp [hkdfConcat]
  | succ k ih =>
    simp [hkdfConcat, hkdfT, ih, hmac_length md hlen, Nat.succ_mul]

theorem hkdfExpand_length (md : MdImpl) (hout : 0 < md.outSize)
    (hlen : ∀ m, (md.hashFn m).length = md.outSize) (prk info : List Nat)
    (n : Nat) : (hkdfExpand md prk info n).length = n := by
  rw [hkdfExpand, List.length_take, hkdfConcat_length md hlen, Nat.mul_comm]
  have hdm := Nat.div_add_mod (n + md.outSize - 1) md.outSize
  have hr := Nat.mod_lt (n + md.outSize - 1) hout
  omega

/-! ## Errors (crate::Error, openssl::error::ErrorStack) -/

/-- Model of an `openssl::error::ErrorStack`: the queued internal error codes.
`errors()` returns this list; the stack may be empty even though the operation
failed (the signal `decrypt_aes_gcm` reclassifies). -/
structure ErrorStack where
  errors : List Nat
deriving DecidableEq

/-- The variants of `pv::error::Error` that crypto.rs produces. -/
inductive Error where
  /-- An error reported by the provider (`Error::Crypto(ErrorStack)`). -/
  | Crypto (e : ErrorStack)
  /-- An AEAD operation was invoked with a non-AEAD key variant. -/
  | NoAeadKey
  /-- Authenticated decryption failed integrity verification. -/
  | GcmTagMismatch
  /-- The signing key's algorithm family is unsupported. -/
  | UnsupportedSigningKey
  /-- The verification key's algorithm family is unsupported. -/
  | UnsupportedVerificationKey
deriving DecidableEq

/-! ## Symmetric keys (SymKey, SymKeyType) -/

/-- Embedding of `SymKeyType` (crypto.rs line 39). -/
inductive SymKeyType where
  | Aes256Gcm
  | Aes256Xts
deriving DecidableEq

/-- Embedding of `SymKey` (crypto.rs line 81).  `Aes256` wraps an
`Aes256GcmKey` (32 bytes), `Aes256Xts` an `Aes256XtsKey` (64 bytes); the
`Confidential` zero-on-drop wrapper has no observable content and is dropped. -/
inductive SymKey where
  | Aes256 (key : List Nat)
  | Aes256Xts (key : List Nat)
deriving DecidableEq

/-- Embedding of `SymKey::value` (crypto.rs line 104). -/
def SymKey.value : SymKey → List Nat
  | .Aes256 key => key
  | .Aes256Xts key => key

/-- Embedding of `SymKey::key_type` (crypto.rs line 112). -/
def SymKey.key_type : SymKey → SymKeyType
  | .Aes256 _ => .Aes256Gcm
  | .Aes256Xts _ => .Aes256Xts

/-- Embedding of `AES_256_GCM_TAG_SIZE` (crypto.rs line 29). -/
def AES_256_GCM_TAG_SIZE : Nat := 16

/-! ## AES-GCM framing (AesGcmResult, encrypt_aes_gcm, decrypt_aes_gcm) -/

/-- Embedding of Rust `core::ops::Range<usize> { start, end }`; `end` is a
Lean keyword, so the field is called `stop`. -/
structure RustRange where
  start : Nat
  stop : Nat
deriving DecidableEq

/-- Embedding of `buf[range]`: the elements of `buf` at positions
`range.start <= i < range.stop`. -/
def sliceRange (buf : List Nat) (r : RustRange) : List Nat :=
  (buf.take r.stop).drop r.start

/-- Embedding of `buf[start..start + src.len()].copy_from_slice(src)`. -/
def setSlice (buf : List Nat) (start : Nat) (src : List Nat) : List Nat :=
  buf.take start ++ src ++ buf.drop (start + src.length)

/-- Embedding of `AesGcmResult` (crypto.rs line 190). -/
structure AesGcmResult where
  buf : List Nat
  aad_range : RustRange
  encr_range : RustRange
  tag_range : RustRange
deriving DecidableEq

/-- Embedding of `AesGcmResult::data` (crypto.rs line 210). -/
def AesGcmResult.data (r : AesGcmResult) : List Nat := r.buf

/-- Model of the OpenSSL AEAD cipher (`openssl::symm::{encrypt_aead,
decrypt_aead}` with `Cipher::aes_256_gcm()`).  `enc key iv aad pt tagLen`
returns the ciphertext and the tag the provider writes into the caller's
`tagLen`-byte tag buffer; `dec key iv aad ct tag` returns the plaintext or an
`ErrorStack`.  Both are deterministic functions, as the OpenSSL primitives
are: all inputs, the IV included, are caller-supplied. -/
structure AeadProvider where
  enc : (key iv aad pt : List Nat) → (tagLen : Nat) → Except ErrorStack (List Nat × List Nat)
  dec : (key iv aad ct tag : List Nat) → Except ErrorStack (List Nat)

/-- The provider writes a tag of exactly the requested length and a ciphertext
as long as the plaintext (documented behaviour of AES-256-GCM `encrypt_aead`). -/
def EncLengths (P : AeadProvider) : Prop :=
  ∀ k iv aad pt tl ct tg, P.enc k iv aad pt tl = .ok (ct, tg) →
    ct.length = pt.length ∧ tg.length = tl

/-- Decrypting what `enc` produced, under the same key/iv/aad, succeeds and
returns the original plaintext (AEAD correctness of the provider cipher). -/
def AeadRoundTrip (P : AeadProvider) : Prop :=
  ∀ k iv aad pt tl ct tg, P.enc k iv aad pt tl = .ok (ct, tg) →
    P.dec k iv aad ct tg = .ok pt

/-- Embedding of `encrypt_aes_gcm` (crypto.rs line 226).  The 16-byte tag
buffer `vec![0xff; AES_256_GCM_TAG_SIZE]` is modelled by requesting a tag of
length `AES_256_GCM_TAG_SIZE` from the provider; the result buffer is built
exactly as in the source: allocate `aad.len() + encr.len() + tag.len()` zero
bytes, then `copy_from_slice` each segment into its range. -/
def encrypt_aes_gcm (P : AeadProvider) (key : SymKey) (iv aad conf : List Nat) :
    Except Error AesGcmResult :=
  match key with
  | SymKey.Aes256 k =>
    match P.enc k iv aad conf AES_256_GCM_TAG_SIZE with
    | .error e => .error (Error.Crypto e)
    | .ok (encr, tag) =>
      let aad_range : RustRange := ⟨0, aad.length⟩
      let encr_range : RustRange := ⟨aad.length, aad.length + encr.length⟩
      let tag_range : RustRange :=
        ⟨aad.length + encr.length, aad.length + encr.length + tag.length⟩
      let buf0 := List.replicate (aad.length + encr.length + tag.length) 0
      let buf1 := setSlice buf0 aad_range.start aad
      let buf2 := setSlice buf1 encr_range.start encr
      let buf3 := setSlice buf2 tag_range.start tag
      .ok ⟨buf3, aad_range, encr_range, tag_range⟩
  | SymKey.Aes256Xts _ => .error Error.NoAeadKey

/-- Embedding of `decrypt_aes_gcm` (crypto.rs line 284).  A provider failure
with an empty error stack is reclassified as `GcmTagMismatch`; otherwise the
`ErrorStack` is surfaced as `Error::Crypto`.  The `Confidential` wrapper on
the returned plaintext carries no observable content and is dropped. -/
def decrypt_aes_gcm (P : AeadProvider) (key : SymKey) (iv aad encr tag : List Nat) :
    Except Error (List Nat) :=
  match key with
  | SymKey.Aes256 k =>
    match P.dec k iv aad encr tag with
    | .ok decr => .ok decr
    | .error ssl_err =>
      if ssl_err.errors.isEmpty then .error Error.GcmTagMismatch
      else .error (Error.Crypto ssl_err)
  | SymKey.Aes256Xts _ => .error Error.NoAeadKey

/-! ## Asymmetric keys and the Diffie-Hellman deriver -/

/-- Model of `openssl::pkey::Id`: the algorithm family of a `PKey`.  The
families crypto.rs dispatches on are explicit constructors; every other
OpenSSL algorithm id is `other` with its numeric id. -/
inductive KeyId where
  | EC
  | RSA
  | HMAC
  | other (code : Nat)
deriving DecidableEq

/-- Model of an `openssl::pkey::PKey` reference: its algorithm id plus opaque
key material.  The key material itself is owned by the provider. -/
structure PKey where
  id : KeyId
  data : Nat
deriving DecidableEq

/-- Model of the OpenSSL key-agreement provider
(`openssl::derive::Deriver`): `derive k1 k2` is the raw shared secret of
`Deriver::new(k1)`, `set_peer(k2)`, `derive_to_vec()`, or the `ErrorStack`
any of the three steps raises (e.g. on mismatched groups). -/
structure DhProvider where
  derive : PKey → PKey → Except ErrorStack (List Nat)

/-- Embedding of `derive_aes256_gcm_key` (crypto.rs line 150): derive the raw
shared secret, `key.extend([0, 0, 0, 1])`, and return the SHA-256 digest of
the concatenation as the 32-byte AES-256-GCM key.  (`hash(MessageDigest::sha256(), ..)`
is the provider digest, modelled by the executable `sha256`; the
`Confidential` wrappers carry no observable content.) -/
def derive_aes256_gcm_key (D : DhProvider) (k1 k2 : PKey) : Except Error (List Nat) :=
  match D.derive k1 k2 with
  | .error e => .error (Error.Crypto e)
  | .ok key => .ok (sha256 (key ++ [0, 0, 0, 1]))

/-! ## Signature dispatch (sign_msg, verify_signature, calculate_hmac) -/

/-- Model of `openssl::rsa::Padding`.  A fresh signing context uses the
OpenSSL default `PKCS1`; `set_rsa_padding` replaces it. -/
inductive Padding where
  | PKCS1
  | PKCS1_PSS
  | other (code : Nat)
deriving DecidableEq

/-- Model of an `openssl::hash::MessageDigest` selector for signatures. -/
inductive MessageDigest where
  | sha256
  | sha512
  | other (code : Nat)
deriving DecidableEq

/-- Model of an `openssl::sign::Signer` context: digest, key and the
currently configured RSA padding. -/
structure Signer where
  dgst : MessageDigest
  key : PKey
  padding : Padding
deriving DecidableEq

/-- Model of an `openssl::sign::Verifier` context: digest, key, configured
RSA padding, and the data fed so far via `update`. -/
structure Verifier where
  dgst : MessageDigest
  key : PKey
  padding : Padding
  data : List Nat
deriving DecidableEq

/-- Model of the OpenSSL signature provider: the failure oracles of context
creation, padding configuration and `update`, and the signing/verification
primitives acting on the explicit context state. -/
structure SigProvider where
  newErr : MessageDigest → PKey → Option ErrorStack
  padErr : Padding → Option ErrorStack
  signOneshot : Signer → List Nat → Except ErrorStack (List Nat)
  vNewErr : MessageDigest → PKey → Option ErrorStack
  vPadErr : Padding → Option ErrorStack
  updateErr : List Nat → Option ErrorStack
  verify : Verifier → List Nat → Except ErrorStack Bool
  verifyOneshot : Verifier → List Nat → List Nat → Except ErrorStack Bool

/-- Model of `Signer::new(dgst, key)`: a fresh context with the OpenSSL
default padding. -/
def Signer.new (P : SigProvider) (dgst : MessageDigest) (key : PKey) :
    Except ErrorStack Signer :=
  match P.newErr dgst key with
  | some e => .error e
  | none => .ok ⟨dgst, key, Padding.PKCS1⟩

/-- Model of `Signer::set_rsa_padding`. -/
def Signer.set_rsa_padding (P : SigProvider) (s : Signer) (p : Padding) :
    Except ErrorStack Signer :=
  match P.padErr p with
  | some e => .error e
  | none => .ok ⟨s.dgst, s.key, p⟩

/-- Model of `Verifier::new(dgst, key)`: a fresh context with the OpenSSL
default padding and no data fed yet. -/
def Verifier.new (P : SigProvider) (dgst : MessageDigest) (key : PKey) :
    Except ErrorStack Verifier :=
  match P.vNewErr dgst key with
  | some e => .error e
  | none => .ok ⟨dgst, key, Padding.PKCS1, []⟩

/-- Model of `Verifier::set_rsa_padding`. -/
def Verifier.set_rsa_padding (P : SigProvider) (v : Verifier) (p : Padding) :
    Except ErrorStack Verifier :=
  match P.vPadErr p with
  | some e => .error e
  | none => .ok ⟨v.dgst, v.key, p, v.data⟩

/-- Model of `Verifier::update`: feed more message data into the context. -/
def Verifier.update (P : SigProvider) (v : Verifier) (msg : List Nat) :
    Except ErrorStack Verifier :=
  match P.updateErr msg with
  | some e => .error e
  | none => .ok ⟨v.dgst, v.key, v.padding, v.data ++ msg⟩

/-- Embedding of `calculate_hmac` (crypto.rs line 319): only a key with
id `HMAC` is accepted; any other id fails with `UnsupportedSigningKey`. -/
def calculate_hmac (P : SigProvider) (hmac_key : PKey) (dgst : MessageDigest)
    (msg : List Nat) : Except Error (List Nat) :=
  match hmac_key.id with
  | KeyId.HMAC =>
    match Signer.new P dgst hmac_key with
    | .error e => .error (Error.Crypto e)
    | .ok sgn =>
      match P.signOneshot sgn msg with
      | .error e => .error (Error.Crypto e)
      | .ok s => .ok s
  | _ => .error Error.UnsupportedSigningKey

/-- Embedding of `sign_msg` (crypto.rs line 339): dispatch on the key's
algorithm id; `EC` signs one-shot, `RSA` configures `PKCS1_PSS` padding first,
anything else fails with `UnsupportedSigningKey`. -/
def sign_msg (P : SigProvider) (skey : PKey) (dgst : MessageDigest)
    (msg : List Nat) : Except Error (List Nat) :=
  match skey.id with
  | KeyId.EC =>
    match Signer.new P dgst skey with
    | .error e => .error (Error.Crypto e)
    | .ok sgn =>
      match P.signOneshot sgn msg with
      | .error e => .error (Error.Crypto e)
      | .ok s => .ok s
  | KeyId.RSA =>
    match Signer.new P dgst skey with
    | .error e => .error (Error.Crypto e)
    | .ok sgn =>
      match Signer.set_rsa_padding P sgn Padding.PKCS1_PSS with
      | .error e => .error (Error.Crypto e)
      | .ok sgn2 =>
        match P.signOneshot sgn2 msg with
        | .error e => .error (Error.Crypto e)
        | .ok s => .ok s
  | _ => .error Error.UnsupportedSigningKey

/-- Embedding of `verify_signature` (crypto.rs line 369): dispatch on the
key's algorithm id; `EC` verifies via streaming update-then-verify, `RSA`
configures `PKCS1_PSS` padding and verifies one-shot, anything else fails
with `UnsupportedVerificationKey`. -/
def verify_signature (P : SigProvider) (skey : PKey) (dgst : MessageDigest)
    (msg sign : List Nat) : Except Error Bool :=
  match skey.id with
  | KeyId.EC =>
    match Verifier.new P dgst skey with
    | .error e => .error (Error.Crypto e)
    | .ok ctx =>
      match Verifier.update P ctx msg with
      | .error e => .error (Error.Crypto e)
      | .ok ctx2 =>
        match P.verify ctx2 sign with
        | .error e => .error (Error.Crypto e)
        | .ok b => .ok b
  | KeyId.RSA =>
    match Verifier.new P dgst skey with
    | .error e => .error (Error.Crypto e)
    | .ok ctx =>
      match Verifier.set_rsa_padding P ctx Padding.PKCS1_PSS with
      | .error e => .error (Error.Crypto e)
      | .ok ctx2 =>
        match P.verifyOneshot ctx2 sign msg with
        | .error e => .error (Error.Crypto e)
        | .ok b => .ok b
  | _ => .error Error.UnsupportedVerificationKey

/-! ## Secret-store hash (pvattest secret_store.rs) -/

/-- Modelled from the spec: `AddSecretRequest::bin_tag` lives in the `pv`
crate's secret module, which is not part of the analysed sources; the spec
says the consumer hash "extracts a fixed-size binary tag from each blob via
an externally defined parsing rule (owned by another module, opaque to this
core)".  It is therefore a parameter: a fallible function from a request blob
to its binary tag.  `read_file` (file I/O) is likewise externalised: the
inputs are the already-read request blobs. -/
def BinTag (ε : Type) : Type := List Nat → Except ε (List Nat)

/-- The request-collection loop of `secret_store_hash` (secret_store.rs
lines 27-31): extract each blob's tag and append it to `requests`, stopping
at the first failure. -/
def collectTags {ε : Type} (bin_tag : BinTag ε) : List (List Nat) → Except ε (List Nat)
  | [] => .ok []
  | asrcb :: rest =>
    match bin_tag asrcb with
    | .error e => .error e
    | .ok tag =>
      match collectTags bin_tag rest with
      | .error e => .error e
      | .ok tags => .ok (tag ++ tags)

/-- Embedding of `secret_store_hash` (secret_store.rs line 25): concatenate
the binary tags of all request blobs in input order, push `locked as u8`
(1 for true, 0 for false), and return the SHA-512 digest of the result. -/
def secret_store_hash {ε : Type} (bin_tag : BinTag ε) (asrcbs : List (List Nat))
    (locked : Bool) : Except ε (List Nat) :=
  match collectTags bin_tag asrcbs with
  | .error e => .error e
  | .ok requests => .ok (sha512 (requests ++ [if locked then 1 else 0]))

/-! ## Helper lemmas about the framed buffer -/

theorem setSlice_append (xs ys zs src : List Nat) (start : Nat)
    (hs : start = xs.length) (hl : ys.length = src.length) :
    setSlice (xs ++ (ys ++ zs)) start src = xs ++ (src ++ zs) := by
  subst hs
  rw [setSlice, List.take_left, List.drop_append, ← hl, List.drop_left,
    List.append_assoc]

/-- The three `copy_from_slice` writes of `encrypt_aes_gcm` tile the
zero-initialised buffer into exactly `aad ++ encr ++ tag`. -/
theorem encrypt_frame (aad encr tag : List Nat) :
    setSlice (setSlice (setSlice
      (List.replicate (aad.length + encr.length + tag.length) 0) 0 aad)
      aad.length encr) (aad.length + encr.length) tag = aad ++ (encr ++ tag) := by
  have e1 : List.replicate (aad.length + encr.length + tag.length) (0 : Nat)
      = [] ++ (List.replicate aad.length 0 ++
          (List.replicate encr.length 0 ++ List.replicate tag.length 0)) := by
    simp [← List.replicate_add, Nat.add_assoc]
  rw [e1, setSlice_append [] _ _ aad 0 rfl (by simp), List.nil_append,
    setSlice_append aad _ _ encr aad.length rfl (by simp)]
  have e2 : aad ++ (encr ++ List.replicate tag.length (0 : Nat))
      = (aad ++ encr) ++ (List.replicate tag.length 0 ++ []) := by simp
  rw [e2, setSlice_append (aad ++ encr) _ _ tag (aad.length + encr.length)
    (by simp) (by simp)]
  simp

theorem sliceRange_left (xs rest : List Nat) (r : RustRange)
    (h0 : r.start = 0) (h1 : r.stop = xs.length) :
    sliceRange (xs ++ rest) r = xs := by
  rw [sliceRange, h0, h1, List.take_left, List.drop_zero]

theorem sliceRange_mid (xs ys zs : List Nat) (r : RustRange)
    (h0 : r.start = xs.length) (h1 : r.stop = xs.length + ys.length) :
    sliceRange (xs ++ (ys ++ zs)) r = ys := by
  rw [sliceRange, h0, h1, List.take_append, List.take_left, List.drop_left]

theorem sliceRange_right (xs ys : List Nat) (r : RustRange)
    (h0 : r.start = xs.length) (h1 : r.stop = xs.length + ys.length) :
    sliceRange (xs ++ ys) r = ys := by
  rw [sliceRange, h0, h1, ← List.length_append, List.take_length, List.drop_left]

/-! ## Concrete providers used for witnesses -/

/-- A concrete AEAD provider: the ciphertext is the plaintext and the tag is
`tagLen` copies of 7; decryption returns the ciphertext unchanged. -/
def idAead : AeadProvider where
  enc := fun _ _ _ pt tl => .ok (pt, List.replicate tl 7)
  dec := fun _ _ _ ct _ => .ok ct

theorem idAead_lengths : EncLengths idAead := by
  intro k iv aad pt tl ct tg h
  rw [idAead] at h
  cases h
  simp

theorem idAead_round_trip : AeadRoundTrip idAead := by
  intro k iv aad pt tl ct tg h
  rw [idAead] at h
  cases h
  rfl

/-- A concrete AEAD provider whose decryption always fails with an empty
error stack. -/
def failAead : AeadProvider where
  enc := fun _ _ _ pt tl => .ok (pt, List.replicate tl 7)
  dec := fun _ _ _ _ _ => .error ⟨[]⟩

/-! ## Claim theorems -/

/-- C1: for every AES-256-GCM key, iv, aad and plaintext for which
`encrypt_aes_gcm` succeeds (under any provider whose AEAD cipher round-trips),
decrypting the three segments of the framed buffer, sliced by `aad_range`,
`encr_range` and `tag_range`, with the same key and iv via `decrypt_aes_gcm`
succeeds and returns exactly the original plaintext. -/
theorem aes_gcm_round_trip (P : AeadProvider) (key : SymKey)
    (iv aad conf : List Nat) (res : AesGcmResult)
    (hP : AeadRoundTrip P)
    (henc : encrypt_aes_gcm P key iv aad conf = .ok res) :
    decrypt_aes_gcm P key iv (sliceRange res.buf res.aad_range)
      (sliceRange res.buf res.encr_range) (sliceRange res.buf res.tag_range)
      = .ok conf := by
  match key with
  | SymKey.Aes256Xts k => exact absurd henc (by simp [encrypt_aes_gcm])
  | SymKey.Aes256 k =>
    rw [encrypt_aes_gcm] at henc
    cases he : P.enc k iv aad conf AES_256_GCM_TAG_SIZE with
    | error e => rw [he] at henc; exact absurd henc (by simp)
    | ok ct =>
      obtain ⟨encr, tag⟩ := ct
      rw [he] at henc
      cases henc
      rw [decrypt_aes_gcm]
      have hbuf := encrypt_frame aad encr tag
      simp only [hbuf]
      rw [sliceRange_left aad (encr ++ tag) _ rfl rfl,
        sliceRange_mid aad encr tag _ rfl rfl]
      have e3 : aad ++ (encr ++ tag) = (aad ++ encr) ++ tag := by
        rw [List.append_assoc]
      rw [e3, sliceRange_right (aad ++ encr) tag _ (by simp) (by simp),
        hP k iv aad conf AES_256_GCM_TAG_SIZE encr tag he]

/-- C1 witness: a concrete round trip through `encrypt_aes_gcm` and
`decrypt_aes_gcm` under the concrete provider `idAead`. -/
theorem aes_gcm_round_trip_witness :
    decrypt_aes_gcm idAead (SymKey.Aes256 [1]) [2]
      (sliceRange ([5, 6, 9, 9, 7, 7, 7, 7, 7, 7, 7, 7, 7, 7, 7, 7, 7, 7, 7, 7] : List Nat) ⟨0, 2⟩)
      (sliceRange [5, 6, 9, 9, 7, 7, 7, 7, 7, 7, 7, 7, 7, 7, 7, 7, 7, 7, 7, 7] ⟨2, 4⟩)
      (sliceRange [5, 6, 9, 9, 7, 7, 7, 7, 7, 7, 7, 7, 7, 7, 7, 7, 7, 7, 7, 7] ⟨4, 20⟩)
      = .ok [9, 9] :=
  aes_gcm_round_trip idAead (SymKey.Aes256 [1]) [2] [5, 6] [9, 9]
    ⟨[5, 6, 9, 9, 7, 7, 7, 7, 7, 7, 7, 7, 7, 7, 7, 7, 7, 7, 7, 7], ⟨0, 2⟩, ⟨2, 4⟩, ⟨4, 20⟩⟩
    idAead_round_trip rfl

/-- C2: for every successful `encrypt_aes_gcm key iv aad plaintext` (under a
provider with the documented AES-GCM output lengths), `aad_range` starts at 0
with length `aad.len()`; `encr_range` starts where `aad_range` ends with
length `plaintext.len()`; `tag_range` starts where `encr_range` ends, has
length exactly 16 and ends at `buf.len()`; and `buf[aad_range]` is the input
aad byte-for-byte. -/
theorem encrypt_framing (P : AeadProvider) (key : SymKey)
    (iv aad conf : List Nat) (res : AesGcmResult)
    (hP : EncLengths P)
    (henc : encrypt_aes_gcm P key iv aad conf = .ok res) :
    res.aad_range.start = 0 ∧ res.aad_range.stop = aad.length ∧
    res.encr_range.start = res.aad_range.stop ∧
    res.encr_range.stop = res.encr_range.start + conf.length ∧
    res.tag_range.start = res.encr_range.stop ∧
    res.tag_range.stop = res.tag_range.start + 16 ∧
    res.tag_range.stop = res.buf.length ∧
    sliceRange res.buf res.aad_range = aad := by
  match key with
  | SymKey.Aes256Xts k => exact absurd henc (by simp [encrypt_aes_gcm])
  | SymKey.Aes256 k =>
    rw [encrypt_aes_gcm] at henc
    cases he : P.enc k iv aad conf AES_256_GCM_TAG_SIZE with
    | error e => rw [he] at henc; exact absurd henc (by simp)
    | ok ct =>
      obtain ⟨encr, tag⟩ := ct
      rw [he] at henc
      cases henc
      obtain ⟨hct, htg⟩ := hP k iv aad conf AES_256_GCM_TAG_SIZE encr tag he
      have hbuf := encrypt_frame aad encr tag
      refine ⟨rfl, rfl, rfl, by simp [hct], rfl, by simp [htg, AES_256_GCM_TAG_SIZE], ?_, ?_⟩
      · simp only [hbuf]
        simp
        omega
      · simp only [hbuf]
        exact sliceRange_left aad (encr ++ tag) _ rfl rfl

/-- C2 witness: the framing invariant at a concrete successful encryption. -/
theorem encrypt_framing_witness :
    (⟨0, 2⟩ : RustRange).start = 0 ∧ (⟨0, 2⟩ : RustRange).stop = ([5, 6] : List Nat).length ∧
    (⟨2, 4⟩ : RustRange).start = (⟨0, 2⟩ : RustRange).stop ∧
    (⟨2, 4⟩ : RustRange).stop = (⟨2, 4⟩ : RustRange).start + ([9, 9] : List Nat).length ∧
    (⟨4, 20⟩ : RustRange).start = (⟨2, 4⟩ : RustRange).stop ∧
    (⟨4, 20⟩ : RustRange).stop = (⟨4, 20⟩ : RustRange).start + 16 ∧
    (⟨4, 20⟩ : RustRange).stop
      = ([5, 6, 9, 9, 7, 7, 7, 7, 7, 7, 7, 7, 7, 7, 7, 7, 7, 7, 7, 7] : List Nat).length ∧
    sliceRange [5, 6, 9, 9, 7, 7, 7, 7, 7, 7, 7, 7, 7, 7, 7, 7, 7, 7, 7, 7] ⟨0, 2⟩ = [5, 6] := by
  have h := encrypt_framing idAead (SymKey.Aes256 [1]) [2] [5, 6] [9, 9]
    ⟨[5, 6, 9, 9, 7, 7, 7, 7, 7, 7, 7, 7, 7, 7, 7, 7, 7, 7, 7, 7], ⟨0, 2⟩, ⟨2, 4⟩, ⟨4, 20⟩⟩
    idAead_lengths rfl
  exact h

/-- C4: when the provider's AEAD decryption call fails, `decrypt_aes_gcm`
classifies by the queued error detail — empty error stack means
`GcmTagMismatch`, otherwise the provider error is surfaced as `Crypto` — the
two outcomes are distinct, and no plaintext is returned on failure. -/
theorem decrypt_error_classification (P : AeadProvider)
    (k iv aad encr tag : List Nat) (e : ErrorStack)
    (hdec : P.dec k iv aad encr tag = .error e) :
    decrypt_aes_gcm P (SymKey.Aes256 k) iv aad encr tag
      = .error (if e.errors = [] then Error.GcmTagMismatch else Error.Crypto e) ∧
    (∀ pt, decrypt_aes_gcm P (SymKey.Aes256 k) iv aad encr tag ≠ .ok pt) ∧
    Error.GcmTagMismatch ≠ Error.Crypto e := by
  have h1 : decrypt_aes_gcm P (SymKey.Aes256 k) iv aad encr tag
      = .error (if e.errors = [] then Error.GcmTagMismatch else Error.Crypto e) := by
    rw [decrypt_aes_gcm, hdec]
    cases herr : e.errors with
    | nil => simp [herr]
    | cons x xs => simp [herr]
  refine ⟨h1, ?_, by simp⟩
  intro pt hpt
  rw [h1] at hpt
  exact absurd hpt (by simp)

/-- C4 witness: a concrete provider failure with an empty error stack is
reported as `GcmTagMismatch`. -/
theorem decrypt_error_classification_witness :
    decrypt_aes_gcm failAead (SymKey.Aes256 [1]) [2] [3] [4] [5]
      = .error (if (ErrorStack.mk []).errors = [] then Error.GcmTagMismatch
                else Error.Crypto ⟨[]⟩) :=
  (decrypt_error_classification failAead [1] [2] [3] [4] [5] ⟨[]⟩ rfl).1

/-- C5: for the non-AEAD key variant (the AES-256-XTS key) and all iv, aad
and data inputs, both `encrypt_aes_gcm` and `decrypt_aes_gcm` fail with
`NoAeadKey`; the result is the same for every provider, so no cipher is ever
invoked and the operation is never routed to a different cipher. -/
theorem non_aead_key_rejected (P : AeadProvider)
    (k iv aad conf encr tag : List Nat) :
    encrypt_aes_gcm P (SymKey.Aes256Xts k) iv aad conf
      = .error Error.NoAeadKey ∧
    decrypt_aes_gcm P (SymKey.Aes256Xts k) iv aad encr tag
      = .error Error.NoAeadKey :=
  ⟨rfl, rfl⟩

/-- C10: `encrypt_aes_gcm` is deterministic — its result depends on nothing
but the key, the caller-supplied iv, the aad, the plaintext and the
provider's cipher output on exactly those inputs; it draws no internal
randomness (two providers agreeing on that one cipher call produce identical
framed buffers and ranges, and in particular two runs under one provider are
identical). -/
theorem encrypt_deterministic (P1 P2 : AeadProvider) (key : SymKey)
    (iv aad conf : List Nat)
    (henc : P1.enc key.value iv aad conf AES_256_GCM_TAG_SIZE
          = P2.enc key.value iv aad conf AES_256_GCM_TAG_SIZE) :
    encrypt_aes_gcm P1 key iv aad conf = encrypt_aes_gcm P2 key iv aad conf := by
  cases key with
  | Aes256 k =>
    rw [SymKey.value] at henc
    rw [encrypt_aes_gcm, encrypt_aes_gcm, henc]
  | Aes256Xts k => rfl

/-- C10 witness: the determinism theorem applied at a concrete input. -/
theorem encrypt_deterministic_witness :
    encrypt_aes_gcm idAead (SymKey.Aes256 [1]) [2] [5, 6] [9, 9]
      = encrypt_aes_gcm idAead (SymKey.Aes256 [1]) [2] [5, 6] [9, 9] :=
  encrypt_deterministic idAead idAead (SymKey.Aes256 [1]) [2] [5, 6] [9, 9] rfl

/-- A concrete key-agreement provider: a constant shared secret
(trivially commutative). -/
def constDh : DhProvider := ⟨fun _ _ => .ok [3, 1, 4]⟩

/-- C3: whenever the agreement between the two keys yields a raw shared
secret, `derive_aes256_gcm_key` returns the 32-byte SHA-256 digest of the
shared secret followed by exactly the four bytes `00 00 00 01`; digest
algorithm and suffix are fixed in the definition, not parameters. -/
theorem derive_key_spec (D : DhProvider) (k1 k2 : PKey) (s : List Nat)
    (hs : D.derive k1 k2 = .ok s) :
    derive_aes256_gcm_key D k1 k2 = .ok (sha256 (s ++ [0, 0, 0, 1])) ∧
    (sha256 (s ++ [0, 0, 0, 1])).length = 32 := by
  constructor
  · rw [derive_aes256_gcm_key, hs]
  · exact sha256_length _

/-- C3 witness: the derivation at a concrete shared secret. -/
theorem derive_key_spec_witness :
    derive_aes256_gcm_key constDh ⟨KeyId.EC, 0⟩ ⟨KeyId.EC, 1⟩
      = .ok (sha256 ([3, 1, 4] ++ [0, 0, 0, 1])) ∧
    (sha256 ([3, 1, 4] ++ [0, 0, 0, 1])).length = 32 :=
  derive_key_spec constDh ⟨KeyId.EC, 0⟩ ⟨KeyId.EC, 1⟩ [3, 1, 4] rfl

/-- C7: `derive_aes256_gcm_key` is deterministic — repeated calls with the
same key pair yield identical keys — and commutative over a matching key
pair: when the underlying agreement gives (A-priv, B-pub) and (B-priv, A-pub)
the same shared secret (commutativity of Diffie-Hellman), the derived keys
coincide. -/
theorem derive_key_deterministic_commutative (D : DhProvider)
    (aPriv bPriv aPub bPub : PKey)
    (hcomm : D.derive aPriv bPub = D.derive bPriv aPub) :
    derive_aes256_gcm_key D aPriv bPub = derive_aes256_gcm_key D aPriv bPub ∧
    derive_aes256_gcm_key D aPriv bPub = derive_aes256_gcm_key D bPriv aPub := by
  refine ⟨rfl, ?_⟩
  rw [derive_aes256_gcm_key, derive_aes256_gcm_key, hcomm]

/-- C7 witness: determinism and commutativity at a concrete provider. -/
theorem derive_key_deterministic_commutative_witness :
    derive_aes256_gcm_key constDh ⟨KeyId.EC, 0⟩ ⟨KeyId.EC, 3⟩
      = derive_aes256_gcm_key constDh ⟨KeyId.EC, 0⟩ ⟨KeyId.EC, 3⟩ ∧
    derive_aes256_gcm_key constDh ⟨KeyId.EC, 0⟩ ⟨KeyId.EC, 3⟩
      = derive_aes256_gcm_key constDh ⟨KeyId.EC, 2⟩ ⟨KeyId.EC, 1⟩ :=
  derive_key_deterministic_commutative constDh ⟨KeyId.EC, 0⟩ ⟨KeyId.EC, 2⟩
    ⟨KeyId.EC, 1⟩ ⟨KeyId.EC, 3⟩ rfl

/-- RFC 5869 test-vector 1 input key material: 22 bytes of `0x0b`. -/
def rfcIkm : List Nat := List.replicate 22 0x0b

/-- RFC 5869 test-vector 1 salt: `00 01 ... 0c`. -/
def rfcSalt : List Nat :=
  [0x00, 0x01, 0x02, 0x03, 0x04, 0x05, 0x06, 0x07, 0x08, 0x09, 0x0a, 0x0b, 0x0c]

/-- RFC 5869 test-vector 1 info: `f0 f1 ... f9`. -/
def rfcInfo : List Nat :=
  [0xf0, 0xf1, 0xf2, 0xf3, 0xf4, 0xf5, 0xf6, 0xf7, 0xf8, 0xf9]

/-- RFC 5869 test-vector 1 output (42 bytes). -/
def rfcOkm : List Nat :=
  [0x3c, 0xb2, 0x5f, 0x25, 0xfa, 0xac, 0xd5, 0x7a, 0x90, 0x43, 0x4f, 0x64,
   0xd0, 0x36, 0x2f, 0x2a, 0x2d, 0x2d, 0x0a, 0x90, 0xcf, 0x1a, 0x5a, 0x4c,
   0x5d, 0xb0, 0x2d, 0x56, 0xec, 0xc4, 0xc5, 0xbf, 0x34, 0x00, 0x72, 0x08,
   0xd5, 0xb8, 0x87, 0x18, 0x58, 0x65]

set_option maxRecDepth 200000 in
/-- C6: `hkdf_rfc_5869` implements RFC 5869 extract-then-expand, producing
exactly `COUNT` output bytes whenever it succeeds, and on the RFC 5869
test-vector-1 inputs under SHA-256 its 42-byte output equals the test-vector
value byte-for-byte. -/
theorem hkdf_rfc_5869_spec :
    (∀ (md : MdImpl) (ikm salt info : List Nat) (n : Nat) (out : List Nat),
        0 < md.outSize → (∀ m, (md.hashFn m).length = md.outSize) →
        hkdf_rfc_5869 md ikm salt info n = some out → out.length = n) ∧
    hkdf_rfc_5869 mdSha256 rfcIkm rfcSalt rfcInfo 42 = some rfcOkm := by
  constructor
  · intro md ikm salt info n out hout hlen h
    rw [hkdf_rfc_5869] at h
    by_cases hc : n ≤ 255 * md.outSize
    · rw [if_pos hc] at h
      cases h
      exact hkdfExpand_length md hout hlen _ _ n
    · rw [if_neg hc] at h
      exact absurd h (by simp)
  · decide

/-- C6 witness: the exact-length part applied to the test-vector output. -/
theorem hkdf_rfc_5869_spec_witness : rfcOkm.length = 42 :=
  hkdf_rfc_5869_spec.1 mdSha256 rfcIkm rfcSalt rfcInfo 42 rfcOkm (by decide)
    (fun m => sha256_length m) hkdf_rfc_5869_spec.2

/-- Lift a provider result into the crate error type, as the `?` operator and
`map_err(Error::Crypto)` do in the source. -/
def mapCrypto {α : Type} : Except ErrorStack α → Except Error α
  | .ok a => .ok a
  | .error e => .error (Error.Crypto e)

/-- C8: key-algorithm dispatch is a closed set — a key whose id is neither
`EC` nor `RSA` makes `sign_msg` fail with `UnsupportedSigningKey` and
`verify_signature` fail with `UnsupportedVerificationKey`; a key whose id is
not `HMAC` makes `calculate_hmac` fail with `UnsupportedSigningKey`; and for
`RSA` keys both sign and verify run the one-shot provider operation on a
context whose padding has been set to `PKCS1_PSS` beforehand. -/
theorem key_algorithm_dispatch (P : SigProvider) (d : MessageDigest)
    (msg sgn : List Nat) :
    (∀ k : PKey, k.id ≠ KeyId.EC → k.id ≠ KeyId.RSA →
      sign_msg P k d msg = .error Error.UnsupportedSigningKey ∧
      verify_signature P k d msg sgn = .error Error.UnsupportedVerificationKey) ∧
    (∀ k : PKey, k.id ≠ KeyId.HMAC →
      calculate_hmac P k d msg = .error Error.UnsupportedSigningKey) ∧
    (∀ k : PKey, k.id = KeyId.RSA → P.newErr d k = none →
      P.padErr Padding.PKCS1_PSS = none →
      sign_msg P k d msg = mapCrypto (P.signOneshot ⟨d, k, Padding.PKCS1_PSS⟩ msg)) ∧
    (∀ k : PKey, k.id = KeyId.RSA → P.vNewErr d k = none →
      P.vPadErr Padding.PKCS1_PSS = none →
      verify_signature P k d msg sgn
        = mapCrypto (P.verifyOneshot ⟨d, k, Padding.PKCS1_PSS, []⟩ sgn msg)) := by
  refine ⟨?_, ?_, ?_, ?_⟩
  · rintro ⟨kid, kdata⟩ hec hrsa
    cases kid with
    | EC => exact absurd rfl hec
    | RSA => exact absurd rfl hrsa
    | HMAC => exact ⟨rfl, rfl⟩
    | other c => exact ⟨rfl, rfl⟩
  · rintro ⟨kid, kdata⟩ hhmac
    cases kid with
    | HMAC => exact absurd rfl hhmac
    | EC => rfl
    | RSA => rfl
    | other c => rfl
  · rintro ⟨kid, kdata⟩ hid hnew hpad
    simp only [PKey.id] at hid
    subst hid
    simp only [sign_msg, Signer.new, Signer.set_rsa_padding, PKey.id, hnew, hpad]
    cases hso : P.signOneshot ⟨d, ⟨KeyId.RSA, kdata⟩, Padding.PKCS1_PSS⟩ msg with
    | ok s => simp [hso, mapCrypto]
    | error e => simp [hso, mapCrypto]
  · rintro ⟨kid, kdata⟩ hid hnew hpad
    simp only [PKey.id] at hid
    subst hid
    simp only [verify_signature, Verifier.new, Verifier.set_rsa_padding, PKey.id, hnew, hpad]
    cases hvo : P.verifyOneshot ⟨d, ⟨KeyId.RSA, kdata⟩, Padding.PKCS1_PSS, []⟩ sgn msg with
    | ok b => simp [hvo, mapCrypto]
    | error e => simp [hvo, mapCrypto]

/-- A concrete signature provider that never fails. -/
def sigP : SigProvider where
  newErr := fun _ _ => none
  padErr := fun _ => none
  signOneshot := fun s msg => .ok (msg ++ [s.key.data])
  vNewErr := fun _ _ => none
  vPadErr := fun _ => none
  updateErr := fun _ => none
  verify := fun _ _ => .ok true
  verifyOneshot := fun _ _ _ => .ok true

/-- C8 witness: the dispatch theorem applied at concrete keys of each
algorithm family. -/
theorem key_algorithm_dispatch_witness :
    sign_msg sigP ⟨KeyId.other 42, 0⟩ MessageDigest.sha256 [1]
      = .error Error.UnsupportedSigningKey ∧
    verify_signature sigP ⟨KeyId.other 42, 0⟩ MessageDigest.sha256 [1] [2]
      = .error Error.UnsupportedVerificationKey ∧
    calculate_hmac sigP ⟨KeyId.EC, 0⟩ MessageDigest.sha256 [1]
      = .error Error.UnsupportedSigningKey ∧
    sign_msg sigP ⟨KeyId.RSA, 5⟩ MessageDigest.sha256 [1]
      = mapCrypto (sigP.signOneshot
          ⟨MessageDigest.sha256, ⟨KeyId.RSA, 5⟩, Padding.PKCS1_PSS⟩ [1]) ∧
    verify_signature sigP ⟨KeyId.RSA, 5⟩ MessageDigest.sha256 [1] [2]
      = mapCrypto (sigP.verifyOneshot
          ⟨MessageDigest.sha256, ⟨KeyId.RSA, 5⟩, Padding.PKCS1_PSS, []⟩ [2] [1]) := by
  have h := key_algorithm_dispatch sigP MessageDigest.sha256 [1] [2]
  exact ⟨(h.1 ⟨KeyId.other 42, 0⟩ (by decide) (by decide)).1,
    (h.1 ⟨KeyId.other 42, 0⟩ (by decide) (by decide)).2,
    h.2.1 ⟨KeyId.EC, 0⟩ (by decide),
    h.2.2.1 ⟨KeyId.RSA, 5⟩ rfl rfl rfl,
    h.2.2.2 ⟨KeyId.RSA, 5⟩ rfl rfl rfl⟩

/-- The tag concatenation collected by the loop is the join of the per-blob
tags, provided every blob's tag extraction succeeds. -/
theorem collectTags_spec {ε : Type} (bin_tag : BinTag ε)
    (blobs tags : List (List Nat))
    (htags : List.Forall₂ (fun b t => bin_tag b = .ok t) blobs tags) :
    collectTags bin_tag blobs = .ok tags.flatten := by
  induction htags with
  | nil => rfl
  | cons hbt _ ih =>
    simp [collectTags, hbt, ih]

set_option maxRecDepth 200000 in
/-- C9: when every blob's tag extraction succeeds, the consumer hash is the
SHA-512 digest of the tags concatenated in input order followed by one byte
encoding the flag (1 for true, 0 for false); for the empty list it is the
SHA-512 digest of the single flag byte, and the two flag values give fixed,
distinct 64-byte digests. -/
theorem secret_store_hash_spec {ε : Type} (bin_tag : BinTag ε)
    (blobs tags : List (List Nat)) (locked : Bool)
    (htags : List.Forall₂ (fun b t => bin_tag b = .ok t) blobs tags) :
    secret_store_hash bin_tag blobs locked
      = .ok (sha512 (tags.flatten ++ [if locked then 1 else 0])) ∧
    secret_store_hash bin_tag [] locked
      = .ok (sha512 [if locked then 1 else 0]) ∧
    sha512 [1] ≠ sha512 [0] ∧
    (sha512 [1]).length = 64 ∧ (sha512 [0]).length = 64 := by
  refine ⟨?_, rfl, by decide, sha512_length _, sha512_length _⟩
  rw [secret_store_hash, collectTags_spec bin_tag blobs tags htags]

/-- A concrete tag extractor used to witness the consumer-hash theorem. -/
def okTag : BinTag Unit := fun b => .ok (b ++ [0])

/-- C9 witness: the consumer hash at two concrete blobs. -/
theorem secret_store_hash_spec_witness :
    secret_store_hash okTag [[1], [2]] true
      = .ok (sha512 ([[1, 0], [2, 0]].flatten ++ [if true then 1 else 0])) :=
  (secret_store_hash_spec okTag [[1], [2]] [[1, 0], [2, 0]] true
    (.cons rfl (.cons rfl .nil))).1

end Pv
